import Mathlib

/-
Verification development for the stream-processing pipeline in
src/handler.py (Telegram message scoring bot).

Texts are modelled as lists of characters; Python values that the handler
inspects (results of dict.get, str coercion) are modelled by the PyVal
type; the per-user history map is a total function from user keys to
windows, with the empty window as the default (matching defaultdict).
External effects are oracles passed as parameters: the wall-clock
same-local-day test, the translate-and-score HTTP call, and the producer
acknowledgment.
-/

namespace TGMP

abbrev Text := List Char

/-- A Python value as seen by the handler: the None object, an integer,
or a string.  The result of rec.get for an absent key is PyVal.none. -/
inductive PyVal where
  | none
  | int (n : Int)
  | str (s : Text)
deriving DecidableEq, Repr

/-- BOT_MENTION constant from handler.py line 22. -/
def BOT_MENTION : Text := "@music_recommender_iss_bot".toList

/-- WATCH_CHAT_IDS constant from handler.py line 23. -/
def WATCH_CHAT_IDS : List Int := [-4714765877]

/-- The fixed window capacity: deque maxlen, handler.py line 30. -/
def WINDOW_CAP : Nat := 10

/-- Python str() applied to a handler value: str(None) is the four
character string None, str of an integer is its decimal form.
Models the coercion at handler.py lines 101 and 133. -/
def pyStr : PyVal → PyVal
  | .none => .str "None".toList
  | .int n => .str (toString n).toList
  | .str s => .str s

/-- The Python test v is None. -/
def isNone : PyVal → Bool
  | .none => true
  | _ => false

/-- The Python test isinstance(v, str). -/
def isStr : PyVal → Bool
  | .str _ => true
  | _ => false

/-- Extract the character list of a string value (only used under an
isStr guard; other cases are unreachable there). -/
def strOf : PyVal → Text
  | .str s => s
  | _ => []

/-- The Python membership test chat_id in WATCH_CHAT_IDS: the watched
set holds integers, so only an integer value can be a member. -/
def inWatch : PyVal → Bool
  | .int n => WATCH_CHAT_IDS.contains n
  | _ => false

/-- A parsed input record as the handler reads it: chat_id and user_id
are the results of rec.get (PyVal.none when the key is absent), while
the message field is kept as an Option so that the get with default
at handler.py lines 102 and 134 can be modelled exactly. -/
structure Rec where
  chat_id : PyVal
  user_id : PyVal
  message : Option PyVal
deriving DecidableEq, Repr

/-- Append to a bounded deque with maxlen WINDOW_CAP (handler.py line
30): the appended element always enters at the right, and the leftmost
elements beyond capacity are dropped. -/
def dequeAppend (w : List Text) (t : Text) : List Text :=
  ((w ++ [t]).drop ((w ++ [t]).length - WINDOW_CAP))

/-- Folding a whole sequence of admissions into one window, starting
from the empty window of a fresh user. -/
def admitAll (ts : List Text) : List Text := ts.foldl dequeAppend []

/-- The Python regex class backslash-s for str patterns: the Unicode
whitespace set of Py_UNICODE_ISSPACE, namely U+0009 to U+000D, U+001C
to U+001F, U+0020, U+0085, U+00A0, U+1680, U+2000 to U+200A, U+2028,
U+2029, U+202F, U+205F and U+3000. -/
def pyIsSpace (c : Char) : Bool :=
  let n := c.toNat
  (0x09 ≤ n && n ≤ 0x0d) || (0x1c ≤ n && n ≤ 0x1f) || n = 0x20 || n = 0x85 ||
    n = 0xa0 || n = 0x1680 || (0x2000 ≤ n && n ≤ 0x200a) || n = 0x2028 ||
    n = 0x2029 || n = 0x202f || n = 0x205f || n = 0x3000

/-- The cleaning step at handler.py line 149: re.sub of an anchored
pattern consisting of the escaped mention marker followed by
backslash-s-star, replaced by the empty string.  Because the pattern is
anchored at the string start it can match at most once, removing one
leading marker and the whitespace right after it; any other string is
returned unchanged. -/
def stripMention (m : Text) : Text :=
  if BOT_MENTION.isPrefixOf m then (m.drop BOT_MENTION.length).dropWhile pyIsSpace else m

/-- The Python containment test pat in s on strings (handler.py line
145): true exactly when some suffix of s starts with pat. -/
def hasSub (pat : Text) : Text → Bool
  | [] => pat.isEmpty
  | c :: tl => pat.isPrefixOf (c :: tl) || hasSub pat tl

/-- One score map returned by the predict service: a JSON object of
numeric fields, in key order. -/
abbrev ScoreMap := List (Text × Int)

/-- Python dict lookup on an insertion-ordered association list. -/
def dget {α : Type} : List (Text × α) → Text → Option α
  | [], _ => Option.none
  | (k, v) :: d, q => if k = q then some v else dget d q

/-- Python dict assignment on an insertion-ordered association list:
an existing key is updated in place, a new key is appended at the end. -/
def dset {α : Type} : List (Text × α) → Text → α → List (Text × α)
  | [], q, v => [(q, v)]
  | (k, w) :: d, q, v => if k = q then (q, v) :: d else (k, w) :: dset d q v

/-- The inner aggregation loop at handler.py lines 158 to 160: for every
key and value of one result, agg at k becomes agg.get(k, 0) plus v. -/
def aggAdd (agg : List (Text × Int)) (r : ScoreMap) : List (Text × Int) :=
  r.foldl (fun a kv => dset a kv.1 ((dget a kv.1).getD 0 + kv.2)) agg

/-- The outer aggregation loop over all results of one trigger. -/
def aggregate (results : List ScoreMap) : List (Text × Int) :=
  results.foldl aggAdd []

def USER_ID_KEY : Text := "user_id".toList

/-- The published record: numeric sums plus the user_id string. -/
abbrev AggRec := List (Text × PyVal)

/-- The aggregate actually published (handler.py lines 157 to 161):
the summed numeric dict, then the assignment of the user_id key to the
triggering user, which overwrites a numeric field of the same name. -/
def finalAgg (results : List ScoreMap) (uid : Text) : AggRec :=
  dset ((aggregate results).map (fun kv => (kv.1, PyVal.int kv.2))) USER_ID_KEY (.str uid)

/-- asyncio.gather over call_predict with return_exceptions False
(handler.py line 153): the joined result is the list of all score maps
when every call succeeds, and an error as soon as any call fails.  The
predict oracle pr stands for call_predict, which includes the
translation step and the HTTP POST. -/
def gatherCalls (pr : Text → Except Unit ScoreMap) : List Text → Except Unit (List ScoreMap)
  | [] => .ok []
  | t :: ts =>
    match pr t with
    | .error e => .error e
    | .ok r =>
      match gatherCalls pr ts with
      | .error e => .error e
      | .ok rs => .ok (r :: rs)

/-- The per-user history map user_history (handler.py line 30): a total
function defaulting to the empty window, matching defaultdict. -/
def Store := Text → List Text

def emptyStore : Store := fun _ => []

def Store.set (s : Store) (u : Text) (w : List Text) : Store :=
  fun v => if v = u then w else s v

/-- Observable log lines emitted while handling one record. -/
inductive LogEv where
  | nonJson
  | invalidRec
  | preloaded (u : Text) (t : Text)
  | triggeredBy (u : Text)
  | predictFailed
  | sent (u : Text)
deriving DecidableEq, Repr

/-- The observable outcome of handling one live record: the history map
after the record, the records published to the result topic, the texts
sent to the predict service, whether the trigger branch ran and on which
snapshot, the log lines, and whether an unhandled transport error
escaped (send_and_wait failing is the only such point). -/
structure StepResult where
  store : Store
  published : List AggRec
  calls : List Text
  triggered : Bool
  snapshot : Option (List Text)
  logs : List LogEv
  fatal : Bool

/-- The aggregate half of the published record given the joined results. -/
structure TrigOut where
  published : List AggRec
  calls : List Text
  logs : List LogEv
  fatal : Bool

/-- The trigger pipeline body, handler.py lines 146 to 163, given the
snapshot batch taken at trigger time: clean every buffered text, gather
the concurrent predict calls, and on joint success build the aggregate
and publish it, the send acknowledgment being the sendOk oracle.  On any
predict failure the trigger is abandoned with a log line; on a failed
acknowledgment the error escapes as fatal. -/
def runTrigger (pr : Text → Except Unit ScoreMap) (sendOk : AggRec → Bool)
    (u : Text) (batch : List Text) : TrigOut :=
  let cleanBatch := batch.map stripMention
  match gatherCalls pr cleanBatch with
  | .error _ => { published := [], calls := cleanBatch,
                  logs := [.triggeredBy u, .predictFailed], fatal := false }
  | .ok results =>
    let agg := finalAgg results u
    if sendOk agg then
      { published := [agg], calls := cleanBatch,
        logs := [.triggeredBy u, .sent u], fatal := false }
    else
      { published := [], calls := cleanBatch,
        logs := [.triggeredBy u], fatal := true }

/-- One iteration of the live loop consume_and_process, handler.py
lines 126 to 163, on one record.  The payload is the parse outcome of
json.loads on the record value (Option.none when parsing raised), ts is
the broker timestamp, sd is the is_same_local_day test at the current
wall clock, pr is call_predict and sendOk the producer acknowledgment. -/
def processLive (sd : Int → Bool) (pr : Text → Except Unit ScoreMap)
    (sendOk : AggRec → Bool) (store : Store) (payload : Option Rec) (ts : Int) :
    StepResult :=
  match payload with
  | Option.none =>
    { store := store, published := [], calls := [], triggered := false,
      snapshot := Option.none, logs := [.nonJson], fatal := false }
  | some r =>
    let chat_id := r.chat_id
    let user_id := pyStr r.user_id
    let text := r.message.getD (.str [])
    if !(inWatch chat_id) || isNone user_id || !(isStr text) then
      { store := store, published := [], calls := [], triggered := false,
        snapshot := Option.none, logs := [], fatal := false }
    else
      let u := strOf user_id
      let t := strOf text
      let store1 := if sd ts then Store.set store u (dequeAppend (store u) t) else store
      if hasSub BOT_MENTION t then
        let batch := store1 u
        let tr := runTrigger pr sendOk u batch
        { store := store1, published := tr.published, calls := tr.calls,
          triggered := true, snapshot := some batch, logs := tr.logs,
          fatal := tr.fatal }
      else
        { store := store1, published := [], calls := [], triggered := false,
          snapshot := Option.none, logs := [], fatal := false }

/-- One record of the backfill loop preload_history, handler.py lines
94 to 112: parse, validate, and admit on the same conjunction of checks,
with no trigger evaluation.  Returns the history map and the log lines. -/
def preloadStep (sd : Int → Bool) (store : Store) (payload : Option Rec) (ts : Int) :
    Store × List LogEv :=
  match payload with
  | Option.none => (store, [.nonJson])
  | some r =>
    let chat_id := r.chat_id
    let user_id := pyStr r.user_id
    let text := r.message.getD (.str [])
    if inWatch chat_id && !(isNone user_id) && isStr text && sd ts then
      let u := strOf user_id
      let t := strOf text
      (Store.set store u (dequeAppend (store u) t), [.preloaded u t])
    else
      (store, [.invalidRec])

/-- True when the first character of the text, if any, is not matched by
the whitespace class (used to describe the stripped form exactly). -/
def headNotSpace : Text → Bool
  | [] => true
  | c :: _ => !(pyIsSpace c)

theorem pyStr_isStr (v : PyVal) : isStr (pyStr v) = true := by
  cases v <;> rfl

theorem pyStr_isNone (v : PyVal) : isNone (pyStr v) = false := by
  cases v <;> rfl

theorem Store.set_same (s : Store) (u : Text) (w : List Text) :
    Store.set s u w u = w := by
  simp [Store.set]

theorem dequeAppend_length_le (w : List Text) (t : Text) :
    (dequeAppend w t).length ≤ WINDOW_CAP := by
  simp only [dequeAppend, List.length_drop, List.length_append, List.length_cons,
    List.length_nil, WINDOW_CAP]
  omega

theorem dequeAppend_getLast (w : List Text) (t : Text) :
    (dequeAppend w t).getLast? = some t := by
  have h : (w ++ [t]).length - WINDOW_CAP ≤ w.length := by
    simp [WINDOW_CAP]
  rw [dequeAppend, List.drop_append_of_le_length h, List.getLast?_concat]

theorem foldl_dequeAppend (ts : List Text) :
    ∀ w : List Text, w.length ≤ WINDOW_CAP →
      ts.foldl dequeAppend w = (w ++ ts).drop ((w ++ ts).length - WINDOW_CAP) := by
  induction ts with
  | nil =>
    intro w hw
    simp only [List.foldl_nil, List.append_nil]
    rw [Nat.sub_eq_zero_of_le hw, List.drop_zero]
  | cons t ts ih =>
    intro w hw
    simp only [List.foldl_cons]
    rw [ih (dequeAppend w t) (dequeAppend_length_le w t), dequeAppend]
    rw [(List.drop_append_of_le_length (Nat.sub_le _ _)).symm]
    rw [List.drop_drop]
    have e2 : (w ++ [t]) ++ ts = w ++ t :: ts := by simp
    rw [e2]
    congr 1
    simp only [List.length_drop, List.length_append, List.length_cons,
      List.length_nil, WINDOW_CAP] at hw ⊢
    omega

theorem dget_dset_self {α : Type} (d : List (Text × α)) (k : Text) (v : α) :
    dget (dset d k v) k = some v := by
  induction d with
  | nil => simp [dget, dset]
  | cons p d ih =>
    obtain ⟨k', w⟩ := p
    by_cases h : k' = k
    · subst h; simp [dget, dset]
    · simp [dget, dset, h, ih]

theorem dget_dset_ne {α : Type} (d : List (Text × α)) (k q : Text) (v : α)
    (h : q ≠ k) : dget (dset d k v) q = dget d q := by
  induction d with
  | nil => simp [dget, dset, Ne.symm h]
  | cons p d ih =>
    obtain ⟨k', w⟩ := p
    by_cases hk : k' = k
    · subst hk
      simp [dget, dset, Ne.symm h]
    · by_cases hq : k' = q
      · subst hq; simp [dget, dset, hk]
      · simp [dget, dset, hk, hq, ih]

theorem dget_map_int (d : List (Text × Int)) (k : Text) :
    dget (d.map (fun kv => (kv.1, PyVal.int kv.2))) k = (dget d k).map PyVal.int := by
  induction d with
  | nil => simp [dget]
  | cons p d ih =>
    obtain ⟨k', v⟩ := p
    by_cases h : k' = k
    · subst h; simp [dget]
    · simp [dget, h, ih]

theorem dget_eq_none {α : Type} (d : List (Text × α)) (k : Text)
    (h : k ∉ d.map Prod.fst) : dget d k = Option.none := by
  induction d with
  | nil => rfl
  | cons p d ih =>
    obtain ⟨k', v⟩ := p
    simp only [List.map_cons, List.mem_cons, not_or] at h
    simp [dget, Ne.symm h.1, ih h.2]

/-- The per-message contribution of one field across all score maps of
a trigger: the value of that field in each map, zero when absent. -/
def sumField (k : Text) (results : List ScoreMap) : Int :=
  (results.map (fun r => (dget r k).getD 0)).sum

theorem dget_aggAdd (r : ScoreMap) :
    ∀ (agg : List (Text × Int)) (k : Text), (r.map Prod.fst).Nodup →
      dget (aggAdd agg r) k =
        if k ∈ r.map Prod.fst then some ((dget agg k).getD 0 + (dget r k).getD 0)
        else dget agg k := by
  induction r with
  | nil => intro agg k _; simp [aggAdd]
  | cons p r ih =>
    obtain ⟨k', v'⟩ := p
    intro agg k hnd
    simp only [List.map_cons, List.nodup_cons] at hnd
    have step : aggAdd agg ((k', v') :: r)
        = aggAdd (dset agg k' ((dget agg k').getD 0 + v')) r := rfl
    rw [step, ih _ k hnd.2]
    by_cases hkk : k = k'
    · subst hkk
      have hnot : k ∉ r.map Prod.fst := hnd.1
      simp [hnot, dget, dget_dset_self]
    · have hget : dget (dset agg k' ((dget agg k').getD 0 + v')) k = dget agg k :=
        dget_dset_ne _ _ _ _ hkk
      by_cases hmem : k ∈ r.map Prod.fst
      · simp [hmem, hkk, hget, dget, Ne.symm hkk]
      · simp [hmem, hkk, hget, dget, Ne.symm hkk]

theorem dget_foldl_aggAdd (results : List ScoreMap) :
    ∀ (agg : List (Text × Int)) (k : Text),
      (∀ r ∈ results, (r.map Prod.fst).Nodup) →
      dget (results.foldl aggAdd agg) k =
        if ∃ r ∈ results, k ∈ r.map Prod.fst
        then some ((dget agg k).getD 0 + sumField k results)
        else dget agg k := by
  induction results with
  | nil => intro agg k _; simp
  | cons r rs ih =>
    intro agg k hnd
    simp only [List.foldl_cons]
    rw [ih (aggAdd agg r) k (fun x hx => hnd x (List.mem_cons_of_mem r hx))]
    have hr := dget_aggAdd r agg k (hnd r (List.mem_cons_self r rs))
    have hsum : sumField k (r :: rs) = (dget r k).getD 0 + sumField k rs := by
      simp [sumField]
    by_cases hmem : k ∈ r.map Prod.fst
    · rw [if_pos hmem] at hr
      have hcons : ∃ x ∈ r :: rs, k ∈ x.map Prod.fst :=
        ⟨r, List.mem_cons_self r rs, hmem⟩
      by_cases hex : ∃ x ∈ rs, k ∈ x.map Prod.fst
      · rw [if_pos hex, if_pos hcons, hr, hsum]
        simp [add_assoc]
      · have hz : sumField k rs = 0 := by
          rw [sumField, List.sum_eq_zero]
          intro y hy
          obtain ⟨x, hx, rfl⟩ := List.mem_map.mp hy
          have hnx : k ∉ x.map Prod.fst := fun hc => hex ⟨x, hx, hc⟩
          rw [dget_eq_none x k hnx]
          rfl
        rw [if_neg hex, if_pos hcons, hr, hsum, hz]
        simp
    · rw [if_neg hmem] at hr
      have hrz : (dget r k).getD 0 = (0 : Int) := by
        rw [dget_eq_none r k hmem]
        rfl
      by_cases hex : ∃ x ∈ rs, k ∈ x.map Prod.fst
      · have hcons : ∃ x ∈ r :: rs, k ∈ x.map Prod.fst := by
          obtain ⟨x, hx, hk⟩ := hex
          exact ⟨x, List.mem_cons_of_mem r hx, hk⟩
        rw [if_pos hex, if_pos hcons, hr, hsum, hrz]
        simp
      · have hcons : ¬ ∃ x ∈ r :: rs, k ∈ x.map Prod.fst := by
          rintro ⟨x, hx, hk⟩
          rcases List.mem_cons.mp hx with rfl | hx'
          · exact hmem hk
          · exact hex ⟨x, hx', hk⟩
        rw [if_neg hex, if_neg hcons, hr]

theorem gatherCalls_error (pr : Text → Except Unit ScoreMap) :
    ∀ l : List Text, (∃ c ∈ l, pr c = Except.error ()) →
      gatherCalls pr l = Except.error () := by
  intro l
  induction l with
  | nil =>
    rintro ⟨c, hc, _⟩
    exact absurd hc (List.not_mem_nil c)
  | cons t ts ih =>
    rintro ⟨c, hc, hfail⟩
    rcases List.mem_cons.mp hc with rfl | hmem
    · simp [gatherCalls, hfail]
    · cases hpt : pr t with
      | error e =>
        cases e
        simp [gatherCalls, hpt]
      | ok r =>
        simp [gatherCalls, hpt, ih ⟨c, hmem, hfail⟩]

theorem isPrefixOf_append (l z : List Char) : l.isPrefixOf (l ++ z) = true := by
  induction l with
  | nil => simp [List.isPrefixOf]
  | cons a l ih => simp [List.isPrefixOf, ih]

theorem dropWhile_space_append (ws rest : Text) (hws : ws.all pyIsSpace = true)
    (hrest : headNotSpace rest = true) :
    (ws ++ rest).dropWhile pyIsSpace = rest := by
  induction ws with
  | nil =>
    cases rest with
    | nil => rfl
    | cons c tl =>
      have hc : pyIsSpace c = false := by
        simpa [headNotSpace] using hrest
      simp [List.dropWhile_cons, hc]
  | cons w ws ih =>
    simp only [List.all_cons, Bool.and_eq_true] at hws
    simp [List.dropWhile_cons, hws.1, ih hws.2]

/-- Unfolding of one live iteration on a record that passes validation:
the chat is watched and the message field holds a string. -/
theorem processLive_valid (sd : Int → Bool) (pr : Text → Except Unit ScoreMap)
    (sendOk : AggRec → Bool) (store : Store) (r : Rec) (ts : Int) (txt : Text)
    (hW : inWatch r.chat_id = true)
    (hT : r.message = some (PyVal.str txt)) :
    processLive sd pr sendOk store (some r) ts =
      (let u := strOf (pyStr r.user_id)
       let store1 := if sd ts then Store.set store u (dequeAppend (store u) txt) else store
       if hasSub BOT_MENTION txt then
         let batch := store1 u
         let tr := runTrigger pr sendOk u batch
         { store := store1, published := tr.published, calls := tr.calls,
           triggered := true, snapshot := some batch, logs := tr.logs,
           fatal := tr.fatal }
       else
         { store := store1, published := [], calls := [], triggered := false,
           snapshot := Option.none, logs := [], fatal := false }) := by
  simp [processLive, hT, hW, pyStr_isStr, pyStr_isNone, strOf, isStr]

/-- C3: for every sequence of admissions to one user HistoryWindow the
window length never exceeds the capacity of 10, and once more than 10
texts have been admitted the window holds exactly the last 10 admitted
texts in admission order, the oldest entry being evicted first. -/
theorem window_capacity_fifo (ts : List Text) :
    (admitAll ts).length ≤ WINDOW_CAP ∧
      (WINDOW_CAP < ts.length → admitAll ts = ts.drop (ts.length - WINDOW_CAP)) := by
  have h : admitAll ts = ts.drop (ts.length - WINDOW_CAP) := by
    have h0 := foldl_dequeAppend ts [] (by simp [WINDOW_CAP])
    simpa [admitAll] using h0
  refine ⟨?_, fun _ => h⟩
  rw [h, List.length_drop]
  simp only [WINDOW_CAP]
  omega

/-- Witness for window_capacity_fifo at a concrete sequence of twelve
admissions: the first two texts are evicted and the last ten survive. -/
theorem window_capacity_fifo_witness :
    (admitAll [['a'], ['b'], ['c'], ['d'], ['e'], ['f'], ['g'], ['h'], ['i'], ['j'],
        ['k'], ['l']]).length ≤ WINDOW_CAP ∧
      admitAll [['a'], ['b'], ['c'], ['d'], ['e'], ['f'], ['g'], ['h'], ['i'], ['j'],
        ['k'], ['l']]
        = [['c'], ['d'], ['e'], ['f'], ['g'], ['h'], ['i'], ['j'], ['k'], ['l']] := by
  refine ⟨(window_capacity_fifo _).1, ?_⟩
  rw [(window_capacity_fifo _).2 (by decide)]
  decide

/-- C9: a record whose payload does not parse is skipped and logged in
both the backfill loop and the live loop: the history map is unchanged,
no trigger is evaluated, nothing is published, no scoring call is made,
and the step is not fatal, so the consume loop goes on. -/
theorem malformed_payload_skipped (sd : Int → Bool) (pr : Text → Except Unit ScoreMap)
    (sendOk : AggRec → Bool) (store : Store) (ts : Int) :
    processLive sd pr sendOk store Option.none ts =
      { store := store, published := [], calls := [], triggered := false,
        snapshot := Option.none, logs := [LogEv.nonJson], fatal := false } ∧
    preloadStep sd store Option.none ts = (store, [LogEv.nonJson]) :=
  ⟨rfl, rfl⟩

/-- C1, behaviour at the failing input: a record in a watched chat with
a string message but no user_id field at all is admitted by both
phases, under the window key None, because the str coercion at lines
101 and 133 happens before the None check, which therefore never
fails. -/
theorem missing_user_id_is_admitted :
    (processLive (fun _ => true) (fun _ => Except.ok []) (fun _ => true) emptyStore
        (some { chat_id := PyVal.int (-4714765877), user_id := PyVal.none,
                message := some (PyVal.str ("hi".toList)) }) 0).store ("None".toList)
        = ["hi".toList] ∧
    (preloadStep (fun _ => true) emptyStore
        (some { chat_id := PyVal.int (-4714765877), user_id := PyVal.none,
                message := some (PyVal.str ("hi".toList)) }) 0).1 ("None".toList)
        = ["hi".toList] :=
  ⟨by decide, by decide⟩

/-- C8 counterexample: a record that parses but lacks the message field
is not skipped as malformed — in a watched chat, with a user_id and a
same-day timestamp, it is admitted into the window of that user as the
empty text, so a HistoryWindow is appended to. -/
theorem missing_message_admitted :
    (processLive (fun _ => true) (fun _ => Except.ok []) (fun _ => true) emptyStore
        (some { chat_id := PyVal.int (-4714765877), user_id := PyVal.int 7,
                message := Option.none }) 0).store ("7".toList) = [[]] ∧
    (processLive (fun _ => true) (fun _ => Except.ok []) (fun _ => true) emptyStore
        (some { chat_id := PyVal.int (-4714765877), user_id := PyVal.int 7,
                message := Option.none }) 0).store ("7".toList) ≠ [] :=
  ⟨by decide, by decide⟩

/-- C5 counterexample: when a returned score map itself contains a field
named user_id, the published aggregate does not map that field to the
numeric sum — the final user_id assignment overwrites it with the
triggering user string. -/
theorem aggregate_user_id_collision :
    dget (finalAgg [[(USER_ID_KEY, 7)]] ("42".toList)) USER_ID_KEY
        = some (PyVal.str ("42".toList)) ∧
    dget (finalAgg [[(USER_ID_KEY, 7)]] ("42".toList)) USER_ID_KEY
        ≠ some (PyVal.int 7) :=
  ⟨by decide, by decide⟩

/-- C5, amended: the published aggregate maps each field name other
than user_id occurring in any returned score map to the sum of the
values of that field across all score maps of the trigger, a field
absent from a given map contributing nothing; the user_id key holds the
triggering user; and the worked example of the spec evaluates exactly
as stated. -/
theorem aggregate_sums_fields (results : List ScoreMap) (uid k : Text)
    (hnd : ∀ r ∈ results, (r.map Prod.fst).Nodup)
    (hk : ∃ r ∈ results, k ∈ r.map Prod.fst)
    (hne : k ≠ USER_ID_KEY) :
    dget (finalAgg results uid) k = some (PyVal.int (sumField k results)) ∧
    dget (finalAgg results uid) USER_ID_KEY = some (PyVal.str uid) ∧
    finalAgg [[("pos".toList, 1), ("neu".toList, 2)],
        [("pos".toList, 3), ("energy".toList, 5)]] ("42".toList)
      = [("pos".toList, PyVal.int 4), ("neu".toList, PyVal.int 2),
         ("energy".toList, PyVal.int 5), (USER_ID_KEY, PyVal.str ("42".toList))] := by
  refine ⟨?_, ?_, by decide⟩
  · rw [finalAgg, dget_dset_ne _ _ _ _ hne, dget_map_int, aggregate,
        dget_foldl_aggAdd results [] k hnd, if_pos hk]
    simp [dget]
  · rw [finalAgg, dget_dset_self]

/-- Witness for aggregate_sums_fields on two concrete score maps that
share the field p, one of which also has the field q. -/
theorem aggregate_sums_fields_witness :
    dget (finalAgg [[(['p'], 1), (['q'], 2)], [(['p'], 3)]] ['u']) ['p']
        = some (PyVal.int (sumField ['p'] [[(['p'], 1), (['q'], 2)], [(['p'], 3)]])) ∧
    dget (finalAgg [[(['p'], 1), (['q'], 2)], [(['p'], 3)]] ['u']) USER_ID_KEY
        = some (PyVal.str ['u']) ∧
    finalAgg [[("pos".toList, 1), ("neu".toList, 2)],
        [("pos".toList, 3), ("energy".toList, 5)]] ("42".toList)
      = [("pos".toList, PyVal.int 4), ("neu".toList, PyVal.int 2),
         ("energy".toList, PyVal.int 5), (USER_ID_KEY, PyVal.str ("42".toList))] :=
  aggregate_sums_fields _ _ _ (by decide) (by decide) (by decide)

/-- C6: the cleaning step removes exactly one leading occurrence of the
mention marker together with any immediately following whitespace, in
the full Unicode whitespace sense of the regex class, and only when the
marker sits at the very start of the text; a text whose marker occurs
elsewhere, or not at all, is passed to scoring unchanged, as the two
concrete spec examples and a no-break-space example show. -/
theorem mention_strip_anchored :
    stripMention ("hello @music_recommender_iss_bot".toList)
        = "hello @music_recommender_iss_bot".toList ∧
    stripMention ("@music_recommender_iss_bot  rate this".toList) = "rate this".toList ∧
    stripMention (BOT_MENTION ++ ([Char.ofNat 0xa0] ++ "rate".toList)) = "rate".toList ∧
    (∀ s : Text, BOT_MENTION.isPrefixOf s = false → stripMention s = s) ∧
    (∀ ws rest : Text, ws.all pyIsSpace = true → headNotSpace rest = true →
      stripMention (BOT_MENTION ++ (ws ++ rest)) = rest) := by
  refine ⟨by decide, by decide, by decide, ?_, ?_⟩
  · intro s h
    simp [stripMention, h]
  · intro ws rest hws hrest
    rw [stripMention, if_pos (isPrefixOf_append _ _), List.drop_left,
        dropWhile_space_append ws rest hws hrest]

/-- Witness for mention_strip_anchored: a marker-free text is kept, and
a text of marker, one space and a tail is stripped to the tail. -/
theorem mention_strip_anchored_witness :
    stripMention ['h', 'i'] = ['h', 'i'] ∧
    stripMention (BOT_MENTION ++ ([' '] ++ ['o', 'k'])) = ['o', 'k'] :=
  ⟨mention_strip_anchored.2.2.2.1 ['h', 'i'] (by decide),
   mention_strip_anchored.2.2.2.2 [' '] ['o', 'k'] (by decide) (by decide)⟩

/-- C4: a well-formed record in a watched chat whose text contains the
mention marker triggers the pipeline even when it fails the
same-local-day admission check, in which case the history map is also
left unchanged: trigger evaluation is independent of admission. -/
theorem trigger_independent_of_admission (sd : Int → Bool)
    (pr : Text → Except Unit ScoreMap) (sendOk : AggRec → Bool) (store : Store)
    (r : Rec) (ts : Int) (txt : Text)
    (hW : inWatch r.chat_id = true)
    (hT : r.message = some (PyVal.str txt))
    (hM : hasSub BOT_MENTION txt = true)
    (hD : sd ts = false) :
    (processLive sd pr sendOk store (some r) ts).triggered = true ∧
    (processLive sd pr sendOk store (some r) ts).store = store := by
  rw [processLive_valid sd pr sendOk store r ts txt hW hT]
  simp [hM, hD]

/-- Witness for trigger_independent_of_admission: a yesterday record
containing the marker in a watched chat still triggers. -/
theorem trigger_independent_of_admission_witness :
    (processLive (fun _ => false) (fun _ => Except.ok []) (fun _ => true) emptyStore
        (some { chat_id := PyVal.int (-4714765877), user_id := PyVal.int 3,
                message := some (PyVal.str BOT_MENTION) }) 0).triggered = true ∧
    (processLive (fun _ => false) (fun _ => Except.ok []) (fun _ => true) emptyStore
        (some { chat_id := PyVal.int (-4714765877), user_id := PyVal.int 3,
                message := some (PyVal.str BOT_MENTION) }) 0).store = emptyStore :=
  trigger_independent_of_admission _ _ _ _ _ _ _ (by decide) rfl (by decide) rfl

/-- C7: for a well-formed watched same-day record containing the
mention marker, the snapshot handed to the trigger pipeline is the
window as updated by the admission of this very record, and its newest
element is the triggering text itself: admission runs before the
trigger check in the same iteration. -/
theorem snapshot_holds_trigger_message (sd : Int → Bool)
    (pr : Text → Except Unit ScoreMap) (sendOk : AggRec → Bool) (store : Store)
    (r : Rec) (ts : Int) (txt : Text)
    (hW : inWatch r.chat_id = true)
    (hT : r.message = some (PyVal.str txt))
    (hM : hasSub BOT_MENTION txt = true)
    (hD : sd ts = true) :
    (processLive sd pr sendOk store (some r) ts).snapshot
        = some (dequeAppend (store (strOf (pyStr r.user_id))) txt) ∧
    (dequeAppend (store (strOf (pyStr r.user_id))) txt).getLast? = some txt := by
  refine ⟨?_, dequeAppend_getLast _ _⟩
  rw [processLive_valid sd pr sendOk store r ts txt hW hT]
  simp [hM, hD, Store.set_same]

/-- Witness for snapshot_holds_trigger_message on a concrete same-day
marker record for user 3 with an empty prior window. -/
theorem snapshot_holds_trigger_message_witness :
    (processLive (fun _ => true) (fun _ => Except.ok []) (fun _ => true) emptyStore
        (some { chat_id := PyVal.int (-4714765877), user_id := PyVal.int 3,
                message := some (PyVal.str BOT_MENTION) }) 0).snapshot
        = some (dequeAppend (emptyStore (strOf (pyStr (PyVal.int 3)))) BOT_MENTION) ∧
    (dequeAppend (emptyStore (strOf (pyStr (PyVal.int 3)))) BOT_MENTION).getLast?
        = some BOT_MENTION :=
  snapshot_holds_trigger_message _ _ _ _ _ _ _ (by decide) rfl (by decide) rfl

/-- C2: if any one of the concurrent scoring calls issued for a trigger
fails, no output record is published for that trigger, the failure is
logged, and the step is not fatal, so the live consume loop continues
with the next record; no partial aggregate is emitted. -/
theorem trigger_all_or_nothing (sd : Int → Bool)
    (pr : Text → Except Unit ScoreMap) (sendOk : AggRec → Bool) (store : Store)
    (r : Rec) (ts : Int) (txt : Text)
    (hW : inWatch r.chat_id = true)
    (hT : r.message = some (PyVal.str txt))
    (hM : hasSub BOT_MENTION txt = true)
    (hF : ∃ c ∈ ((if sd ts then dequeAppend (store (strOf (pyStr r.user_id))) txt
                  else store (strOf (pyStr r.user_id))).map stripMention),
          pr c = Except.error ()) :
    (processLive sd pr sendOk store (some r) ts).published = [] ∧
    LogEv.predictFailed ∈ (processLive sd pr sendOk store (some r) ts).logs ∧
    (processLive sd pr sendOk store (some r) ts).fatal = false := by
  have hg : gatherCalls pr ((if sd ts then dequeAppend (store (strOf (pyStr r.user_id))) txt
      else store (strOf (pyStr r.user_id))).map stripMention) = Except.error () :=
    gatherCalls_error pr _ hF
  have happ : (if sd ts then Store.set store (strOf (pyStr r.user_id))
        (dequeAppend (store (strOf (pyStr r.user_id))) txt) else store)
        (strOf (pyStr r.user_id))
      = (if sd ts then dequeAppend (store (strOf (pyStr r.user_id))) txt
         else store (strOf (pyStr r.user_id))) := by
    cases hsd : sd ts <;> simp [Store.set_same]
  rw [processLive_valid sd pr sendOk store r ts txt hW hT]
  simp [hM, runTrigger, happ, hg]

/-- Witness for trigger_all_or_nothing: one concrete trigger whose
single scoring call fails publishes nothing. -/
theorem trigger_all_or_nothing_witness :
    (processLive (fun _ => true) (fun _ => Except.error ()) (fun _ => true) emptyStore
        (some { chat_id := PyVal.int (-4714765877), user_id := PyVal.int 3,
                message := some (PyVal.str BOT_MENTION) }) 0).published = [] ∧
    LogEv.predictFailed ∈ (processLive (fun _ => true) (fun _ => Except.error ())
        (fun _ => true) emptyStore
        (some { chat_id := PyVal.int (-4714765877), user_id := PyVal.int 3,
                message := some (PyVal.str BOT_MENTION) }) 0).logs ∧
    (processLive (fun _ => true) (fun _ => Except.error ()) (fun _ => true) emptyStore
        (some { chat_id := PyVal.int (-4714765877), user_id := PyVal.int 3,
                message := some (PyVal.str BOT_MENTION) }) 0).fatal = false :=
  trigger_all_or_nothing _ _ _ _ _ _ _ (by decide) rfl (by decide) ⟨[], by decide, rfl⟩

/-- C10: a watched marker record that triggers while the window of the
triggering user is empty issues zero scoring calls, yet still publishes
one output record holding only the user_id field. -/
theorem empty_window_trigger_publishes_user_only (sd : Int → Bool)
    (pr : Text → Except Unit ScoreMap) (sendOk : AggRec → Bool) (store : Store)
    (r : Rec) (ts : Int) (txt : Text)
    (hW : inWatch r.chat_id = true)
    (hT : r.message = some (PyVal.str txt))
    (hM : hasSub BOT_MENTION txt = true)
    (hD : sd ts = false)
    (hE : store (strOf (pyStr r.user_id)) = [])
    (hS : sendOk [(USER_ID_KEY, PyVal.str (strOf (pyStr r.user_id)))] = true) :
    (processLive sd pr sendOk store (some r) ts).calls = [] ∧
    (processLive sd pr sendOk store (some r) ts).published
        = [[(USER_ID_KEY, PyVal.str (strOf (pyStr r.user_id)))]] ∧
    (processLive sd pr sendOk store (some r) ts).fatal = false := by
  rw [processLive_valid sd pr sendOk store r ts txt hW hT]
  simp [hM, hD, hE, runTrigger, gatherCalls, finalAgg, aggregate, aggAdd, dset, hS]

/-- Witness for empty_window_trigger_publishes_user_only: a yesterday
marker record from user 3 with no buffered history. -/
theorem empty_window_trigger_publishes_user_only_witness :
    (processLive (fun _ => false) (fun _ => Except.ok []) (fun _ => true) emptyStore
        (some { chat_id := PyVal.int (-4714765877), user_id := PyVal.int 3,
                message := some (PyVal.str BOT_MENTION) }) 0).calls = [] ∧
    (processLive (fun _ => false) (fun _ => Except.ok []) (fun _ => true) emptyStore
        (some { chat_id := PyVal.int (-4714765877), user_id := PyVal.int 3,
                message := some (PyVal.str BOT_MENTION) }) 0).published
        = [[(USER_ID_KEY, PyVal.str (strOf (pyStr (PyVal.int 3))))]] ∧
    (processLive (fun _ => false) (fun _ => Except.ok []) (fun _ => true) emptyStore
        (some { chat_id := PyVal.int (-4714765877), user_id := PyVal.int 3,
                message := some (PyVal.str BOT_MENTION) }) 0).fatal = false :=
  empty_window_trigger_publishes_user_only _ _ _ _ _ _ _
    (by decide) rfl (by decide) rfl rfl rfl

/-- C8, amended: a record that parses but lacks the message field is
not treated as malformed — its text defaults to the empty string, so it
never triggers the pipeline, nothing is published, the step is not
fatal, and, when the chat is watched and the timestamp is same-day, it
is admitted into the window of its user as an empty text in both the
live phase and the backfill phase. -/
theorem missing_message_defaults_empty (sd : Int → Bool)
    (pr : Text → Except Unit ScoreMap) (sendOk : AggRec → Bool) (store : Store)
    (r : Rec) (ts : Int)
    (hM : r.message = Option.none) :
    (processLive sd pr sendOk store (some r) ts).triggered = false ∧
    (processLive sd pr sendOk store (some r) ts).published = [] ∧
    (processLive sd pr sendOk store (some r) ts).fatal = false ∧
    (inWatch r.chat_id = true → sd ts = true →
      (processLive sd pr sendOk store (some r) ts).store (strOf (pyStr r.user_id))
        = dequeAppend (store (strOf (pyStr r.user_id))) []) ∧
    (inWatch r.chat_id = true → sd ts = true →
      (preloadStep sd store (some r) ts).1 (strOf (pyStr r.user_id))
        = dequeAppend (store (strOf (pyStr r.user_id))) []) := by
  have hns : hasSub BOT_MENTION ([] : Text) = false := by decide
  cases hw : inWatch r.chat_id <;> cases hsd : sd ts <;>
    refine ⟨?_, ?_, ?_, ?_, ?_⟩ <;>
      simp [processLive, preloadStep, hM, hw, hsd, pyStr_isNone, pyStr_isStr, isStr,
        strOf, hns, Store.set_same]

/-- Witness for missing_message_defaults_empty: the concrete record of
user 7 without a message field is admitted as the empty text. -/
theorem missing_message_defaults_empty_witness :
    (processLive (fun _ => true) (fun _ => Except.ok []) (fun _ => true) emptyStore
        (some { chat_id := PyVal.int (-4714765877), user_id := PyVal.int 7,
                message := Option.none }) 0).store (strOf (pyStr (PyVal.int 7)))
      = dequeAppend (emptyStore (strOf (pyStr (PyVal.int 7)))) [] :=
  (missing_message_defaults_empty _ _ _ _ _ _ rfl).2.2.2.1 (by decide) rfl

end TGMP
